import Mathlib

/-!
Verification of the Clause Risk Engine of the Contract-Guard repository
(src/backend/services/contractService.js) against its natural-language
specification.  The JavaScript functions are shallowly embedded as
executable Lean definitions: JS numbers become rationals (all weights are
exact decimals), `Math.round` becomes Mathlib's `round` (both round halves
toward positive infinity), strings become Lean strings, and the regular
expressions of the rule-based detector — all of which are alternations of
literal segments, `.?` and `.*` — are embedded by a small backtracking
matcher with JavaScript's leftmost/greedy `g`-flag semantics.
-/

namespace ContractGuard

/-- The `severity` field of a risky clause; the spec's closed set
{Low, Medium, High}. -/
inductive Severity where
  | low
  | medium
  | high
deriving DecidableEq, Repr

/-- A risky clause as built and consumed by contractService.js
(`title`, `quote`, optional `explanation`, `severity`, `category`,
`riskScore`).  `riskScore` is a JS number, embedded as a rational. -/
structure Clause where
  title : String
  quote : String
  explanation : Option String
  severity : Severity
  category : String
  riskScore : ℚ
deriving DecidableEq, Repr

/-- The `severityMultiplier` table inside `calculateOverallRiskScore`:
Low 1, Medium 2, High 3. -/
def severityMultiplier : Severity → ℚ
  | .low => 1
  | .medium => 2
  | .high => 3

/-- The `categoryWeight` table inside `calculateOverallRiskScore`, with the
source's `|| 0.7` default for a category that is not a key of the table. -/
def overallCategoryWeight (category : String) : ℚ :=
  if category = "termination" then 9/10
  else if category = "penalty" then 8/10
  else if category = "non-compete" then 9/10
  else if category = "auto-renewal" then 6/10
  else if category = "arbitration" then 7/10
  else if category = "liability" then 8/10
  else if category = "hidden-fees" then 6/10
  else if category = "refund-restrictions" then 7/10
  else if category = "other" then 7/10
  else 7/10

/-- One clause's contribution to the aggregate score:
`(clause.riskScore || 5) * severityMultiplier[severity] * (categoryWeight[category] || 0.7)`.
JS `||` substitutes 5 for a falsy (zero) riskScore. -/
def clauseContribution (c : Clause) : ℚ :=
  (if c.riskScore = 0 then 5 else c.riskScore) *
    severityMultiplier c.severity * overallCategoryWeight c.category

/-- The running `totalScore` accumulated over the clause list. -/
def totalScore (cs : List Clause) : ℚ :=
  (cs.map clauseContribution).sum

/-- `calculateOverallRiskScore` of contractService.js: baseline 20 on the
empty list, otherwise
`max (min 100 (round (total / (30·n) · 100))) (min (30 + 5·n) 70)`. -/
def calculateOverallRiskScore (riskyClauses : List Clause) : ℤ :=
  if riskyClauses.length = 0 then 20
  else
    let total := totalScore riskyClauses
    let maxPossible : ℚ := 30 * riskyClauses.length
    let normalizedScore : ℤ := min 100 (round (total / maxPossible * 100))
    let minScore : ℤ := min (30 + riskyClauses.length * 5) 70
    max normalizedScore minScore

/-- The number of clauses whose severity is High, as
`riskyClauses.filter(c => c.severity === 'High').length`. -/
def highRiskClauseCount (riskyClauses : List Clause) : ℕ :=
  (riskyClauses.filter (fun c => c.severity == Severity.high)).length

/-- `generateRecommendation` of contractService.js. -/
def generateRecommendation (overallRiskScore : ℤ) (riskyClauses : List Clause) : String :=
  let highRiskClauses := highRiskClauseCount riskyClauses
  if overallRiskScore ≥ 70 ∨ highRiskClauses ≥ 2 then "Avoid signing"
  else if overallRiskScore ≥ 40 ∨ highRiskClauses ≥ 1 then "Review carefully"
  else "Safe to sign"

/-- The `severityScores` table inside `calculateClauseRiskScore`:
Low 3, Medium 6, High 9. -/
def severityScore : Severity → ℚ
  | .low => 3
  | .medium => 6
  | .high => 9

/-- The `categoryWeights` table inside `calculateClauseRiskScore` (the
per-clause scorer), with the source's `|| 0.8` default. -/
def clauseCategoryWeight (category : String) : ℚ :=
  if category = "termination" then 1
  else if category = "penalty" then 9/10
  else if category = "non-compete" then 1
  else if category = "auto-renewal" then 7/10
  else if category = "arbitration" then 8/10
  else if category = "liability" then 8/10
  else if category = "hidden-fees" then 6/10
  else if category = "refund-restrictions" then 7/10
  else 8/10

/-- `calculateClauseRiskScore` of contractService.js:
`Math.round(severityScores[severity] * categoryWeights[category])`. -/
def calculateClauseRiskScore (severity : Severity) (category : String) : ℤ :=
  round (severityScore severity * clauseCategoryWeight category)

/-- The duplicate test of `combineRiskyClauses`: same `category` and same
first 50 characters of `quote`. -/
def isDuplicateOf50 (existing c : Clause) : Bool :=
  existing.category == c.category && existing.quote.data.take 50 == c.quote.data.take 50

/-- The accumulation loop shared by `combineRiskyClauses` and
`removeDuplicateClauses`: fold over the incoming clauses, appending each
one unless some already-accumulated clause matches it under `p`. -/
def dedupFold (p : Clause → Clause → Bool) (acc : List Clause) (l : List Clause) :
    List Clause :=
  l.foldl
    (fun unique clause =>
      if unique.any (fun existing => p existing clause)
      then unique
      else unique ++ [clause])
    acc

/-- `combineRiskyClauses` of contractService.js: start from the rule-based
list, append each AI clause that duplicates no clause accumulated so far,
then `slice(0, 10)`. -/
def combineRiskyClauses (ruleBasedClauses aiClauses : List Clause) : List Clause :=
  (dedupFold isDuplicateOf50 ruleBasedClauses aiClauses).take 10

/-- The duplicate test of `removeDuplicateClauses`: same `category` and same
first 100 characters of `quote`. -/
def isDuplicateOf100 (existing c : Clause) : Bool :=
  existing.category == c.category && existing.quote.data.take 100 == c.quote.data.take 100

/-- `removeDuplicateClauses` of contractService.js. -/
def removeDuplicateClauses (clauses : List Clause) : List Clause :=
  dedupFold isDuplicateOf100 [] clauses

/-!
The rule-based detector.  Every regular expression in `riskPatterns` is a
sequence of literal segments, `.?` and `.*` (`.` matches any character but a
newline); `RTok`/`RPat` embed exactly that shape, and `tryMatch` implements
JavaScript's backtracking semantics (greedy quantifiers, leftmost match).
-/

/-- One token of a contractService.js risk pattern. -/
inductive RTok where
  | lit : List Char → RTok
  | anyOpt : RTok
  | anyStar : RTok
deriving DecidableEq, Repr

/-- A risk pattern: a sequence of tokens. -/
abbrev RPat := List RTok

/-- A literal pattern segment (stored lowercase, matched case-insensitively). -/
def seg (s : String) : RTok := .lit s.data

/-- Case-insensitive test that a literal (already lowercase) is a prefix of
the text, per the `i` regex flag. -/
def ciPref : List Char → List Char → Bool
  | [], _ => true
  | _ :: _, [] => false
  | p :: ps, c :: cs => p == c.toLower && ciPref ps cs

/-- Backtracking for `.*`: `revPre` is the (reversed) part the star currently
consumes; try the continuation on the suffix, giving characters back one at
a time on failure (greedy: longest first). -/
def starGo (cont : List Char → Option (List Char)) :
    List Char → List Char → Option (List Char)
  | revPre, suf =>
    match cont suf with
    | some m => some (revPre.reverse ++ m)
    | none =>
      match revPre with
      | [] => none
      | c :: revPre' => starGo cont revPre' (c :: suf)

/-- Match a pattern at the start of `s`, returning the consumed characters of
the first match in JavaScript's backtracking order (quantifiers greedy). -/
def tryMatch : RPat → List Char → Option (List Char)
  | [], _ => some []
  | .lit l :: rest, s =>
    if ciPref l s then (tryMatch rest (s.drop l.length)).map (fun m => s.take l.length ++ m)
    else none
  | .anyOpt :: rest, s =>
    match s with
    | [] => tryMatch rest []
    | c :: s' =>
      if c = '\n' then tryMatch rest (c :: s')
      else
        match tryMatch rest s' with
        | some m => some (c :: m)
        | none => tryMatch rest (c :: s')
  | .anyStar :: rest, s =>
    let chunk := s.takeWhile (fun c => c ≠ '\n')
    starGo (tryMatch rest) chunk.reverse (s.drop chunk.length)

/-- `text.match(new RegExp(pattern, 'gi'))`: scan from the left, at each
position try the pattern, on success record the match and resume after it
(after one character for an empty match, as JavaScript does).  The fuel is
the remaining text length, which bounds the number of scan steps. -/
def scanMatches (p : RPat) : ℕ → List Char → List (List Char)
  | 0, _ => []
  | _ + 1, [] => []
  | fuel + 1, c :: rest =>
    match tryMatch p (c :: rest) with
    | some m =>
      if m.isEmpty then scanMatches p fuel rest
      else m :: scanMatches p fuel ((c :: rest).drop m.length)
    | none => scanMatches p fuel rest

/-- All `gi`-flag matches of a pattern in a text. -/
def jsMatch (p : RPat) (text : List Char) : List (List Char) :=
  scanMatches p (text.length + 1) text

/-- A sentence separator of `text.split(/[.!?]+/)`. -/
def isSentenceSep (c : Char) : Bool := c == '.' || c == '!' || c == '?'

/-- `text.split(/[.!?]+/)` with fuel (the remaining length): split at each
maximal run of separators. -/
def splitSentencesAux : ℕ → List Char → List (List Char)
  | 0, _ => []
  | fuel + 1, s =>
    let piece := s.takeWhile (fun c => !isSentenceSep c)
    let rest := (s.drop piece.length).dropWhile isSentenceSep
    if s.drop piece.length = [] then [piece]
    else piece :: splitSentencesAux fuel rest

/-- The sentence list of a text, as contractService.js splits it. -/
def splitSentences (text : List Char) : List (List Char) :=
  splitSentencesAux (text.length + 1) text

/-- JavaScript `toLowerCase` on our character lists. -/
def lowerChars (s : List Char) : List Char := s.map Char.toLower

/-- JavaScript `hay.includes(needle)`. -/
def containsSub : List Char → List Char → Bool
  | hay, needle =>
    if needle.isPrefixOf hay then true
    else
      match hay with
      | [] => false
      | _ :: t => containsSub t needle

/-- JavaScript `trim`: strip whitespace from both ends. -/
def jsTrim (s : List Char) : List Char :=
  ((s.dropWhile Char.isWhitespace).reverse.dropWhile Char.isWhitespace).reverse

/-- One entry of the `riskPatterns` table: pattern list, fixed severity,
canonical category tag. -/
structure RiskConfig where
  patterns : List RPat
  severity : Severity
  category : String
deriving Repr

/-- The `riskPatterns` table of contractService.js, in object insertion
order, each regular expression written as its token sequence. -/
def riskPatterns : List (String × RiskConfig) :=
  [ ("auto-renewal",
     ⟨[ [seg "automatically renew"],
        [seg "auto", .anyOpt, seg "renewal"],
        [seg "unless", .anyStar, seg "notice", .anyStar, seg "terminate"],
        [seg "shall continue", .anyStar, seg "unless", .anyStar, seg "terminated"],
        [seg "renew", .anyStar, seg "additional", .anyStar, seg "term"] ],
      .medium, "auto-renewal"⟩),
    ("termination-penalty",
     ⟨[ [seg "early termination", .anyStar, seg "fee"],
        [seg "penalty", .anyStar, seg "cancel"],
        [seg "liquidated damages"],
        [seg "termination", .anyStar, seg "penalty"],
        [seg "cancellation", .anyStar, seg "fee"] ],
      .high, "penalty"⟩),
    ("non-compete",
     ⟨[ [seg "non", .anyOpt, seg "compete"],
        [seg "restraint", .anyStar, seg "trade"],
        [seg "competing", .anyStar, seg "business"],
        [seg "solicit", .anyStar, seg "customers"],
        [seg "covenant", .anyStar, seg "not", .anyStar, seg "compete"] ],
      .high, "non-compete"⟩),
    ("arbitration",
     ⟨[ [seg "binding arbitration"],
        [seg "waive", .anyStar, seg "right", .anyStar, seg "jury"],
        [seg "dispute", .anyStar, seg "arbitration"],
        [seg "mandatory arbitration"],
        [seg "arbitration", .anyStar, seg "agreement"] ],
      .medium, "arbitration"⟩),
    ("liability-limitation",
     ⟨[ [seg "limit", .anyStar, seg "liability"],
        [seg "exclude", .anyStar, seg "damages"],
        [seg "no", .anyStar, seg "consequential", .anyStar, seg "damages"],
        [seg "liability", .anyStar, seg "limited", .anyStar, seg "to"],
        [seg "maximum", .anyStar, seg "liability"] ],
      .medium, "liability"⟩),
    ("hidden-fees",
     ⟨[ [seg "additional", .anyStar, seg "fees"],
        [seg "service", .anyStar, seg "charges"],
        [seg "processing", .anyStar, seg "fee"],
        [seg "administrative", .anyStar, seg "cost"],
        [seg "miscellaneous", .anyStar, seg "charges"] ],
      .medium, "hidden-fees"⟩),
    ("refund-restrictions",
     ⟨[ [seg "no", .anyStar, seg "refund"],
        [seg "non", .anyOpt, seg "refundable"],
        [seg "refund", .anyStar, seg "policy"],
        [seg "no", .anyStar, seg "return"],
        [seg "final", .anyStar, seg "sale"] ],
      .medium, "refund-restrictions"⟩) ]

/-- `formatRiskTitle` of contractService.js. -/
def formatRiskTitle (riskType : String) : String :=
  if riskType = "auto-renewal" then "Automatic Renewal Clause"
  else if riskType = "termination-penalty" then "Early Termination Penalty"
  else if riskType = "non-compete" then "Non-Compete Restriction"
  else if riskType = "arbitration" then "Mandatory Arbitration"
  else if riskType = "liability-limitation" then "Liability Limitation"
  else if riskType = "hidden-fees" then "Additional Fees"
  else if riskType = "refund-restrictions" then "Refund Restrictions"
  else "Risky Clause"

/-- The clause the detector pushes for one regex match `m`: find the first
sentence containing the match (case-insensitively); if it exists and its
trim is non-empty, build the clause — note the quote is the trimmed
sentence cut to 300 characters with `'...'` appended unconditionally. -/
def clauseForMatch (text : List Char) (riskType : String) (cfg : RiskConfig)
    (m : List Char) : Option Clause :=
  match (splitSentences text).find?
      (fun sentence => containsSub (lowerChars sentence) (lowerChars m)) with
  | none => none
  | some matchingSentence =>
    if (jsTrim matchingSentence).length > 0 then
      some
        { title := formatRiskTitle riskType
          quote := String.mk ((jsTrim matchingSentence).take 300 ++ "...".data)
          explanation := none
          severity := cfg.severity
          category := cfg.category
          riskScore := (calculateClauseRiskScore cfg.severity cfg.category : ℚ) }
    else none

/-- `detectRiskyClausesRuleBased` of contractService.js: for every table
entry, every pattern and every match (in that nesting order) push the
clause of `clauseForMatch`, then remove duplicates. -/
def detectRiskyClausesRuleBased (text : String) : List Clause :=
  let detected :=
    (riskPatterns.map (fun rc =>
      (rc.2.patterns.map (fun pat =>
        (jsMatch pat text.data).filterMap (clauseForMatch text.data rc.1 rc.2))).flatten)).flatten
  removeDuplicateClauses detected

/-!
The orchestration `analyzeContract`.  The two external interactions — the
bulk completion call with its JSON parse, and the per-clause explanation
calls — are the only non-deterministic inputs; they are passed in as an
`AIReply` (error / invalid JSON / parsed object) and an explanation oracle.
Everything else is the source's deterministic control flow: the inner
catch rethrows an API error to the outer catch (the fallback return), a
parse error substitutes `createFallbackAnalysis` for the parsed object and
continues on the main path.
-/

/-- The parsed JSON object of the model reply; every field may be absent,
and JavaScript `||` treats an empty string or a zero as absent too. -/
structure AIAnalysis where
  summary : Option String
  keyHighlights : Option (List String)
  contractType : Option String
  riskyClauses : Option (List Clause)
  negotiationTips : Option (List String)
  confidence : Option ℚ

/-- The outcome of the external model call. -/
inductive AIReply where
  | apiFailure : AIReply
  | parseFailure : AIReply
  | parsed : AIAnalysis → AIReply

/-- The analysis record `analyzeContract` returns. -/
structure AnalysisResult where
  summary : String
  keyHighlights : List String
  contractType : String
  riskyClauses : List Clause
  overallRiskScore : ℤ
  recommendation : String
  negotiationTips : List String
  analysisVersion : String
  aiModel : String
  confidence : ℚ

/-- JS `v || d` for an optional string (an empty string is falsy). -/
def strOr (v : Option String) (d : String) : String :=
  match v with
  | none => d
  | some s => if s = "" then d else s

/-- JS `v || d` for an optional number (zero is falsy). -/
def ratOr (v : Option ℚ) (d : ℚ) : ℚ :=
  match v with
  | none => d
  | some q => if q = 0 then d else q

/-- JS `v || d` for an optional array (an array is truthy even when empty). -/
def listOr {α : Type} (v : Option (List α)) (d : List α) : List α :=
  match v with
  | none => d
  | some l => l

/-- `getDefaultExplanation` of contractService.js. -/
def getDefaultExplanation (category : String) : String :=
  if category = "auto-renewal" then
    "This clause automatically extends your contract without your explicit consent, potentially locking you into unwanted terms."
  else if category = "penalty" then
    "This clause imposes financial penalties for early termination, which could be costly if you need to exit the contract."
  else if category = "non-compete" then
    "This clause restricts your ability to work in your field after the contract ends, potentially limiting your career options."
  else if category = "arbitration" then
    "This clause requires disputes to be resolved through arbitration instead of court, limiting your legal options."
  else if category = "liability" then
    "This clause limits the other party's responsibility for damages, potentially leaving you unprotected."
  else if category = "hidden-fees" then
    "This clause allows for additional charges that may not be clearly disclosed upfront."
  else if category = "refund-restrictions" then
    "This clause limits your ability to get refunds, potentially putting your money at risk."
  else "This clause contains terms that could be disadvantageous to you."

/-- `enhanceClausesWithExplanations`: fill a missing (or JS-falsy empty)
explanation from the per-clause completion call (the oracle), falling back
to the category default when that call fails. -/
def enhanceClausesWithExplanations (oracle : Clause → Option String)
    (clauses : List Clause) : List Clause :=
  clauses.map (fun clause =>
    let missing := match clause.explanation with
      | none => true
      | some e => e = ""
    if missing then
      match oracle clause with
      | some e => { clause with explanation := some e }
      | none => { clause with explanation := some (getDefaultExplanation clause.category) }
    else clause)

/-- `createFallbackAnalysis` of contractService.js, with its default
arguments embedded as `Option` (JS tests `riskyClauses.length === 0` and
`overallRiskScore === null` / `recommendation === null`). -/
def createFallbackAnalysis (contractText fileName : String)
    (riskyClauses0 : List Clause) (overallRiskScore0 : Option ℤ)
    (recommendation0 : Option String) : AnalysisResult :=
  let riskyClauses :=
    if riskyClauses0.length = 0 then detectRiskyClausesRuleBased contractText
    else riskyClauses0
  let overallRiskScore :=
    match overallRiskScore0 with
    | none => calculateOverallRiskScore riskyClauses
    | some s => s
  let recommendation :=
    match recommendation0 with
    | none => generateRecommendation overallRiskScore riskyClauses
    | some r => r
  { summary := "This appears to be a legal contract (" ++ fileName ++
      "). Our analysis has identified " ++ toString riskyClauses.length ++
      " areas that require attention. Please review carefully before signing."
    keyHighlights :=
      [ "Contract contains standard legal terms",
        toString riskyClauses.length ++ " potential risk areas identified",
        "Consider consulting a legal professional for complex terms" ]
    contractType := "other"
    riskyClauses := riskyClauses
    overallRiskScore := overallRiskScore
    recommendation := recommendation
    negotiationTips :=
      [ "Review all terms carefully before signing",
        "Consider negotiating unfavorable clauses",
        "Seek legal advice if unsure about any terms",
        "Ask for clarification on complex language" ]
    analysisVersion := "1.0"
    aiModel := "rule-based-fallback"
    confidence := 6/10 }

/-- The fallback result reread as a parsed-object shape (the parse-error
branch assigns `createFallbackAnalysis(...)` to `aiAnalysis` and the main
path then reads its fields). -/
def toAIAnalysis (r : AnalysisResult) : AIAnalysis :=
  { summary := some r.summary
    keyHighlights := some r.keyHighlights
    contractType := some r.contractType
    riskyClauses := some r.riskyClauses
    negotiationTips := some r.negotiationTips
    confidence := some r.confidence }

/-- The tail of the `try` block of `analyzeContract`: combine, enhance,
score, recommend, and assemble the returned record from `aiAnalysis`'s
fields with JS `||` defaults. -/
def mainPathResult (oracle : Clause → Option String) (contractText : String)
    (aiAnalysis : AIAnalysis) : AnalysisResult :=
  let ruleBasedClauses := detectRiskyClausesRuleBased contractText
  let combinedClauses := combineRiskyClauses ruleBasedClauses (listOr aiAnalysis.riskyClauses [])
  let enhancedClauses := enhanceClausesWithExplanations oracle combinedClauses
  let overallRiskScore := calculateOverallRiskScore enhancedClauses
  let recommendation := generateRecommendation overallRiskScore enhancedClauses
  { summary := strOr aiAnalysis.summary "Contract analysis completed."
    keyHighlights := listOr aiAnalysis.keyHighlights []
    contractType := strOr aiAnalysis.contractType "other"
    riskyClauses := enhancedClauses
    overallRiskScore := overallRiskScore
    recommendation := recommendation
    negotiationTips := listOr aiAnalysis.negotiationTips []
    analysisVersion := "1.0"
    aiModel := "gpt-4"
    confidence := ratOr aiAnalysis.confidence (8/10) }

/-- `analyzeContract` of contractService.js as a function of the model
reply, the explanation oracle, the contract text and the file name. -/
def analyzeContract (reply : AIReply) (oracle : Clause → Option String)
    (contractText fileName : String) : AnalysisResult :=
  match reply with
  | .parsed aiAnalysis => mainPathResult oracle contractText aiAnalysis
  | .parseFailure =>
    mainPathResult oracle contractText
      (toAIAnalysis (createFallbackAnalysis contractText fileName [] none none))
  | .apiFailure =>
    let ruleBasedClauses := detectRiskyClausesRuleBased contractText
    let enhancedClauses := ruleBasedClauses.map (fun clause =>
      { clause with explanation := some (strOr clause.explanation
          (getDefaultExplanation clause.category)) })
    let overallRiskScore := calculateOverallRiskScore enhancedClauses
    let recommendation := generateRecommendation overallRiskScore enhancedClauses
    createFallbackAnalysis contractText fileName enhancedClauses
      (some overallRiskScore) (some recommendation)

/-!
Concrete values used by the counterexamples and witnesses below.
-/

/-- A High-severity termination clause with the maximal riskScore 10. -/
def cHighTermination10 : Clause :=
  { title := "t1", quote := "q1", explanation := none,
    severity := .high, category := "termination", riskScore := 10 }

/-- A High-severity non-compete clause with the minimal riskScore 1. -/
def cHighNonCompete1 : Clause :=
  { title := "t2", quote := "q2", explanation := none,
    severity := .high, category := "non-compete", riskScore := 1 }

/-- A Low-severity hidden-fees clause with riskScore 1. -/
def cLowHiddenFees1 : Clause :=
  { title := "t3", quote := "q3", explanation := none,
    severity := .low, category := "hidden-fees", riskScore := 1 }

/-- A Medium-severity liability clause with riskScore 5. -/
def cMediumLiability5 : Clause :=
  { title := "t4", quote := "q4", explanation := none,
    severity := .medium, category := "liability", riskScore := 5 }

/-- The `categoryWeight` table exactly as §4.1 of the spec states it
(termination 1.0, penalty 0.9, non-compete 1.0, auto-renewal 0.7,
arbitration 0.8, liability 0.8, hidden-fees 0.6, refund-restrictions 0.7),
with the 0.7 default the overall-scorer claim attaches to it.  This follows
the spec's words, not the source, and is compared against
`overallCategoryWeight` (the table the source actually applies). -/
def specCategoryWeight41 (category : String) : ℚ :=
  if category = "termination" then 1
  else if category = "penalty" then 9/10
  else if category = "non-compete" then 1
  else if category = "auto-renewal" then 7/10
  else if category = "arbitration" then 8/10
  else if category = "liability" then 8/10
  else if category = "hidden-fees" then 6/10
  else if category = "refund-restrictions" then 7/10
  else 7/10

/-- The claim's total: `riskScore × severityMultiplier × categoryWeight`
summed over the clauses (no `|| 5` substitution, as the claim writes it). -/
def specTotalScore (cs : List Clause) : ℚ :=
  (cs.map (fun c =>
    c.riskScore * severityMultiplier c.severity * overallCategoryWeight c.category)).sum

/-- A contract text that triggers twelve distinct rule-based clauses (two
per category for five categories, one for two more), all surviving the
100-character deduplication. -/
def manyRisksText : String :=
  "You must pay liquidated damages.\nA cancellation fee applies.\nThis contract shall automatically renew.\nAn auto renewal term applies.\nA non compete duty applies.\nDo not solicit customers afterwards.\nWe use binding arbitration.\nMandatory arbitration is required.\nWe limit all liability.\nExtra processing fee applies.\nThere is no refund here.\nThe item is a final sale."

/-- A quote of 50 x's followed by a 1. -/
def dupQuoteA : String := String.mk (List.replicate 50 'x' ++ ['1'])

/-- A quote of 50 x's followed by a 2: same first 50 characters as
`dupQuoteA`, different text. -/
def dupQuoteB : String := String.mk (List.replicate 50 'x' ++ ['2'])

/-- A rule-based clause carrying `dupQuoteA`. -/
def c6a : Clause :=
  { title := "t5", quote := dupQuoteA, explanation := none,
    severity := .high, category := "penalty", riskScore := 8 }

/-- A second rule-based clause carrying `dupQuoteB`: it collides with
`c6a` under the 50-character criterion. -/
def c6b : Clause :=
  { title := "t6", quote := dupQuoteB, explanation := none,
    severity := .high, category := "penalty", riskScore := 8 }

/-- A model-based clause that collides with `c6a`. -/
def c6c : Clause :=
  { title := "t7", quote := dupQuoteB, explanation := none,
    severity := .medium, category := "penalty", riskScore := 4 }

/-- A contract text that is one short sentence (31 characters, no sentence
separator) triggering the liquidated-damages pattern. -/
def shortRiskText : String := "You must pay liquidated damages"

/-!
Claim C1 — the weight table of the overall scorer.
-/

/-- C1 counterexample: the weight `calculateOverallRiskScore` applies to a
`termination` clause is 0.9, not the 1.0 of the §4.1 table the claim cites;
concretely, a single High/termination/riskScore-10 clause scores 90 where
the claimed table would produce 100. -/
theorem C1_counterexample :
    overallCategoryWeight "termination" ≠ specCategoryWeight41 "termination" ∧
    overallCategoryWeight "termination" = 9/10 ∧
    specCategoryWeight41 "termination" = 1 ∧
    calculateOverallRiskScore [cHighTermination10] = 90 ∧
    max (min 100 (round (cHighTermination10.riskScore * severityMultiplier Severity.high *
      specCategoryWeight41 "termination" / 30 * 100))) (min 35 70) = 100 := by
  refine ⟨?_, ?_, ?_, ?_, ?_⟩
  · simp +decide [overallCategoryWeight, specCategoryWeight41]
    norm_num
  · simp +decide [overallCategoryWeight]
  · simp +decide [specCategoryWeight41]
  · simp +decide [calculateOverallRiskScore, totalScore, clauseContribution,
      severityMultiplier, overallCategoryWeight, cHighTermination10]
    norm_num [round_eq]
  · simp +decide [specCategoryWeight41, severityMultiplier, cHighTermination10]
    norm_num [round_eq]

/-- C1 amended: `calculateOverallRiskScore` uses its own fixed table —
termination 0.9, penalty 0.8, non-compete 0.9, auto-renewal 0.6,
arbitration 0.7, liability 0.8, hidden-fees 0.6, refund-restrictions 0.7,
other 0.7 — with a default of 0.7 for any category not explicitly
weighted; it does not mirror the §4.1 per-clause table. -/
theorem C1_amended_weight_table :
    (overallCategoryWeight "termination" = 9/10 ∧
     overallCategoryWeight "penalty" = 8/10 ∧
     overallCategoryWeight "non-compete" = 9/10 ∧
     overallCategoryWeight "auto-renewal" = 6/10 ∧
     overallCategoryWeight "arbitration" = 7/10 ∧
     overallCategoryWeight "liability" = 8/10 ∧
     overallCategoryWeight "hidden-fees" = 6/10 ∧
     overallCategoryWeight "refund-restrictions" = 7/10 ∧
     overallCategoryWeight "other" = 7/10) ∧
    ∀ c : String,
      c ∉ ["termination", "penalty", "non-compete", "auto-renewal", "arbitration",
           "liability", "hidden-fees", "refund-restrictions", "other"] →
      overallCategoryWeight c = 7/10 := by
  constructor
  · refine ⟨?_, ?_, ?_, ?_, ?_, ?_, ?_, ?_, ?_⟩ <;> simp +decide [overallCategoryWeight]
  · intro c hc
    simp only [List.mem_cons, List.not_mem_nil, or_false] at hc
    push_neg at hc
    obtain ⟨h1, h2, h3, h4, h5, h6, h7, h8, h9⟩ := hc
    simp [overallCategoryWeight, h1, h2, h3, h4, h5, h6, h7, h8, h9]

/-- C1 amended, witness: a category outside the table falls to the 0.7
default. -/
theorem C1_amended_weight_table_witness :
    overallCategoryWeight "data-privacy" = 7/10 :=
  C1_amended_weight_table.2 "data-privacy" (by decide)

/-!
Claim C4 — the closed form of `calculateOverallRiskScore`.
-/

theorem totalScore_eq_spec (cs : List Clause) (h : ∀ c ∈ cs, 1 ≤ c.riskScore) :
    totalScore cs = specTotalScore cs := by
  induction cs with
  | nil => rfl
  | cons c cs ih =>
    have hc : ¬ c.riskScore = 0 := by
      have := h c (List.mem_cons_self c cs)
      intro h0
      rw [h0] at this
      norm_num at this
    simp only [totalScore, specTotalScore, List.map_cons, List.sum_cons] at *
    rw [clauseContribution, if_neg hc]
    congr 1
    exact ih (fun d hd => h d (List.mem_cons_of_mem c hd))

/-- C4: on the empty list the scorer returns the fixed baseline 20; on a
non-empty list of clauses with riskScore in the data model's range
(1 ≤ riskScore, so the `|| 5` substitution is inert) it returns
`max (min 100 (round (total / (30·n) · 100))) (min (30 + 5·n) 70)` with the
total of the claim's formula. -/
theorem C4_overall_score_formula (cs : List Clause)
    (h : ∀ c ∈ cs, 1 ≤ c.riskScore) (hne : cs ≠ []) :
    calculateOverallRiskScore [] = 20 ∧
    calculateOverallRiskScore cs =
      max (min 100 (round (specTotalScore cs / (30 * (cs.length : ℚ)) * 100)))
        (min (30 + 5 * (cs.length : ℤ)) 70) := by
  refine ⟨rfl, ?_⟩
  have hlen : ¬ cs.length = 0 := fun h0 => hne (List.eq_nil_of_length_eq_zero h0)
  rw [calculateOverallRiskScore, if_neg hlen, totalScore_eq_spec cs h]
  rw [Int.mul_comm (cs.length : ℤ) 5]

/-- C4 witness: the formula at the one-element list `[cHighTermination10]`. -/
theorem C4_overall_score_formula_witness :
    calculateOverallRiskScore [] = 20 ∧
    calculateOverallRiskScore [cHighTermination10] =
      max (min 100 (round (specTotalScore [cHighTermination10] /
          (30 * (([cHighTermination10] : List Clause).length : ℚ)) * 100)))
        (min (30 + 5 * ((([cHighTermination10] : List Clause).length : ℤ))) 70) :=
  C4_overall_score_formula [cHighTermination10] (by decide) (by decide)

/-!
Claim C5 — the recommendation thresholds.
-/

/-- C5: `generateRecommendation` returns exactly the three labels of the
spec's threshold table: Avoid signing iff score ≥ 70 or ≥ 2 High clauses,
else Review carefully iff score ≥ 40 or ≥ 1 High clause, else Safe to
sign. -/
theorem C5_recommendation_thresholds (s : ℤ) (cs : List Clause) :
    (generateRecommendation s cs = "Avoid signing" ↔
      (70 ≤ s ∨ 2 ≤ highRiskClauseCount cs)) ∧
    (generateRecommendation s cs = "Review carefully" ↔
      (¬(70 ≤ s ∨ 2 ≤ highRiskClauseCount cs) ∧ (40 ≤ s ∨ 1 ≤ highRiskClauseCount cs))) ∧
    (generateRecommendation s cs = "Safe to sign" ↔
      (¬(70 ≤ s ∨ 2 ≤ highRiskClauseCount cs) ∧ ¬(40 ≤ s ∨ 1 ≤ highRiskClauseCount cs))) := by
  unfold generateRecommendation
  by_cases h1 : s ≥ 70 ∨ highRiskClauseCount cs ≥ 2
  · simp +decide [h1]
  · by_cases h2 : s ≥ 40 ∨ highRiskClauseCount cs ≥ 1
    · simp +decide [h1, h2]
    · simp +decide [h1, h2]

/-!
Claim C10 — the range of the overall score.
-/

/-- C10: the scorer returns 20 exactly on the empty list; on a non-empty
list it returns an integer in [35, 100]; hence no output lies strictly
between 20 and 35 (in particular none in 21..34). -/
theorem C10_score_range (cs : List Clause) :
    (cs = [] → calculateOverallRiskScore cs = 20) ∧
    (cs ≠ [] → 35 ≤ calculateOverallRiskScore cs ∧ calculateOverallRiskScore cs ≤ 100) ∧
    (calculateOverallRiskScore cs = 20 ↔ cs = []) ∧
    ¬(20 < calculateOverallRiskScore cs ∧ calculateOverallRiskScore cs < 35) := by
  have hrange : cs ≠ [] →
      35 ≤ calculateOverallRiskScore cs ∧ calculateOverallRiskScore cs ≤ 100 := by
    intro hne
    have hlen : ¬ cs.length = 0 := fun h0 => hne (List.eq_nil_of_length_eq_zero h0)
    have hlen1 : 1 ≤ cs.length := Nat.one_le_iff_ne_zero.mpr hlen
    rw [calculateOverallRiskScore, if_neg hlen]
    constructor
    · refine le_max_of_le_right ?_
      refine le_min ?_ (by norm_num)
      have : (1 : ℤ) ≤ (cs.length : ℤ) := by exact_mod_cast hlen1
      nlinarith
    · refine max_le ?_ ?_
      · exact min_le_left _ _
      · exact le_trans (min_le_right _ _) (by norm_num)
  have hempty : cs = [] → calculateOverallRiskScore cs = 20 := by
    intro h
    rw [h]
    rfl
  refine ⟨hempty, hrange, ⟨?_, fun h => by rw [h]; rfl⟩, ?_⟩
  · intro h20
    by_contra hne
    have := (hrange hne).1
    omega
  · rcases eq_or_ne cs [] with h | h
    · rw [hempty h]
      omega
    · have := hrange h
      omega

/-- C10 witness: the range at the one-element list `[cLowHiddenFees1]`. -/
theorem C10_score_range_witness :
    35 ≤ calculateOverallRiskScore [cLowHiddenFees1] ∧
    calculateOverallRiskScore [cLowHiddenFees1] ≤ 100 :=
  (C10_score_range [cLowHiddenFees1]).2.1 (by decide)

/-!
Claim C7 — a detected clause and the safe band.
-/

/-- C7 counterexample: one Low/hidden-fees/riskScore-1 clause scores 35
(the floor), which is below the 40 threshold, and with no High clause the
recommendation is exactly the safe label the claim rules out. -/
theorem C7_counterexample :
    calculateOverallRiskScore [cLowHiddenFees1] = 35 ∧
    generateRecommendation (calculateOverallRiskScore [cLowHiddenFees1])
      [cLowHiddenFees1] = "Safe to sign" := by
  have h : calculateOverallRiskScore [cLowHiddenFees1] = 35 := by
    simp +decide [calculateOverallRiskScore, totalScore, clauseContribution,
      severityMultiplier, overallCategoryWeight, cLowHiddenFees1]
    norm_num [round_eq]
  refine ⟨h, ?_⟩
  rw [h]
  simp +decide [generateRecommendation, highRiskClauseCount, cLowHiddenFees1]

/-- C7 amended: with at least two detected clauses the floor
`min (30 + 5·n) 70` is at least 40, so the recommendation is never
Safe to sign; a single Low- or Medium-severity clause, however, can score
35 and still be labelled Safe to sign. -/
theorem C7_amended_no_safe_with_two (cs : List Clause) (h2 : 2 ≤ cs.length) :
    generateRecommendation (calculateOverallRiskScore cs) cs ≠ "Safe to sign" := by
  have hlen : ¬ cs.length = 0 := by omega
  have hscore : 40 ≤ calculateOverallRiskScore cs := by
    rw [calculateOverallRiskScore, if_neg hlen]
    refine le_max_of_le_right (le_min ?_ (by norm_num))
    have h2' : (2 : ℤ) ≤ (cs.length : ℤ) := by exact_mod_cast h2
    nlinarith
  unfold generateRecommendation
  by_cases h1 : calculateOverallRiskScore cs ≥ 70 ∨ highRiskClauseCount cs ≥ 2
  · rw [if_pos h1]
    decide
  · rw [if_neg h1, if_pos (Or.inl hscore)]
    decide

/-- C7 amended, witness: two Low clauses are already out of the safe band. -/
theorem C7_amended_no_safe_with_two_witness :
    generateRecommendation (calculateOverallRiskScore [cLowHiddenFees1, cMediumLiability5])
      [cLowHiddenFees1, cMediumLiability5] ≠ "Safe to sign" :=
  C7_amended_no_safe_with_two [cLowHiddenFees1, cMediumLiability5] (by decide)

/-!
Claim C8 — monotonicity of the scorer under appending a strong clause.
-/

theorem totalScore_append_single (cs : List Clause) (c : Clause) :
    totalScore (cs ++ [c]) = totalScore cs + clauseContribution c := by
  simp [totalScore]

/-- C8 counterexample: appending the High/non-compete/riskScore-1 clause to
the singleton High/termination/riskScore-10 list drops the score from 90 to
50 — the weak new clause dilutes the normalized average faster than the
floor rises. -/
theorem C8_counterexample :
    cHighNonCompete1.severity = Severity.high ∧
    cHighNonCompete1.category = "non-compete" ∧
    1 ≤ cHighNonCompete1.riskScore ∧ cHighNonCompete1.riskScore ≤ 10 ∧
    calculateOverallRiskScore [cHighTermination10] = 90 ∧
    calculateOverallRiskScore ([cHighTermination10] ++ [cHighNonCompete1]) = 50 ∧
    calculateOverallRiskScore ([cHighTermination10] ++ [cHighNonCompete1]) <
      calculateOverallRiskScore [cHighTermination10] := by
  have h1 : calculateOverallRiskScore [cHighTermination10] = 90 := by
    simp +decide [calculateOverallRiskScore, totalScore, clauseContribution,
      severityMultiplier, overallCategoryWeight, cHighTermination10]
    norm_num [round_eq]
  have h2 : calculateOverallRiskScore ([cHighTermination10] ++ [cHighNonCompete1]) = 50 := by
    simp +decide [calculateOverallRiskScore, totalScore, clauseContribution,
      severityMultiplier, overallCategoryWeight, cHighTermination10, cHighNonCompete1]
    norm_num [round_eq]
  exact ⟨rfl, rfl, by decide, by decide, h1, h2, by rw [h1, h2]; norm_num⟩

/-- C8 amended: appending a High-severity, high-weight clause never
decreases the score provided its weighted contribution is at least the
running average of the existing clauses (`totalScore cs ≤ contribution · n`,
trivially true for the empty list); without that proviso the appended
clause can dilute the normalized average and lower the score, as the
counterexample shows. -/
theorem C8_amended_monotone (cs : List Clause) (c : Clause)
    (hsev : c.severity = Severity.high)
    (hcat : c.category = "non-compete" ∨ c.category = "termination")
    (hr1 : 1 ≤ c.riskScore) (hr10 : c.riskScore ≤ 10)
    (havg : totalScore cs ≤ clauseContribution c * (cs.length : ℚ)) :
    calculateOverallRiskScore cs ≤ calculateOverallRiskScore (cs ++ [c]) := by
  rcases eq_or_ne cs [] with rfl | hne
  · rw [List.nil_append, calculateOverallRiskScore]
    norm_num
    refine le_trans ?_ (le_max_right _ _)
    norm_num
  · have hlen : ¬ cs.length = 0 := fun h0 => hne (List.eq_nil_of_length_eq_zero h0)
    have hlen' : ¬ (cs ++ [c]).length = 0 := by
      simp [List.length_append]
    have hn : (0 : ℚ) < (cs.length : ℚ) := by
      exact_mod_cast Nat.pos_of_ne_zero hlen
    rw [calculateOverallRiskScore, if_neg hlen, calculateOverallRiskScore, if_neg hlen']
    refine max_le_max ?_ ?_
    · refine min_le_min le_rfl ?_
      rw [round_eq, round_eq]
      refine Int.floor_le_floor ?_
      have hdiv : totalScore cs / (30 * (cs.length : ℚ)) ≤
          totalScore (cs ++ [c]) / (30 * ((cs ++ [c]).length : ℚ)) := by
        rw [totalScore_append_single, List.length_append, List.length_singleton]
        push_cast
        rw [div_le_div_iff₀ (by positivity) (by positivity)]
        nlinarith [havg]
      nlinarith [hdiv]
    · refine min_le_min ?_ le_rfl
      have : (cs ++ [c]).length = cs.length + 1 := by simp
      rw [this]
      push_cast
      omega

/-- C8 amended, witness: appending the maximal-strength clause
`cHighTermination10` to a single Medium clause (average 8 ≤ contribution 27)
does not decrease the score. -/
theorem C8_amended_monotone_witness :
    calculateOverallRiskScore [cMediumLiability5] ≤
    calculateOverallRiskScore ([cMediumLiability5] ++ [cHighTermination10]) :=
  C8_amended_monotone [cMediumLiability5] cHighTermination10 rfl
    (by right; rfl) (by decide) (by decide)
    (by simp +decide [totalScore, clauseContribution, severityMultiplier,
          overallCategoryWeight, cMediumLiability5, cHighTermination10]
        norm_num)

/-!
Claim C3 — the failure paths return confidence 0.6.
-/

/-- C3: whether the external call errors (any transport, quota or auth
failure — the inner catch rethrows into the outer fallback) or its reply is
not valid JSON (the parse catch substitutes the fallback object on the main
path), `analyzeContract` returns a result whose confidence is 0.6. -/
theorem C3_fallback_confidence (oracle : Clause → Option String)
    (contractText fileName : String) :
    (analyzeContract .apiFailure oracle contractText fileName).confidence = 6/10 ∧
    (analyzeContract .parseFailure oracle contractText fileName).confidence = 6/10 := by
  constructor
  · simp [analyzeContract, createFallbackAnalysis]
  · simp only [analyzeContract, mainPathResult, toAIAnalysis, createFallbackAnalysis, ratOr]
    norm_num

/-!
Claim C2 — the 10-clause cap.
-/

set_option maxRecDepth 8000 in
/-- C2 counterexample: when the external call fails, the fallback path
returns the rule-based clause list without the cap — on `manyRisksText` the
result holds 12 risky clauses. -/
theorem C2_counterexample :
    (analyzeContract .apiFailure (fun _ => none) manyRisksText "contract.pdf").riskyClauses.length
      = 12 ∧
    ¬((analyzeContract .apiFailure (fun _ => none) manyRisksText
        "contract.pdf").riskyClauses.length ≤ 10) := by
  constructor
  · decide
  · decide

/-- C2 amended: the ≤ 10 cap does hold for every parsed reply and on the
invalid-JSON path (both run through `combineRiskyClauses` and its
`slice(0, 10)`), but not on the API-failure fallback path, which returns
the uncapped rule-based list. -/
theorem C2_amended_cap (oracle : Clause → Option String)
    (contractText fileName : String) (a : AIAnalysis) :
    (analyzeContract (.parsed a) oracle contractText fileName).riskyClauses.length ≤ 10 ∧
    (analyzeContract .parseFailure oracle contractText fileName).riskyClauses.length ≤ 10 := by
  have hmain : ∀ b : AIAnalysis,
      (mainPathResult oracle contractText b).riskyClauses.length ≤ 10 := by
    intro b
    simp only [mainPathResult, enhanceClausesWithExplanations, combineRiskyClauses,
      List.length_map, List.length_take]
    exact min_le_left _ _
  exact ⟨hmain a, hmain _⟩

/-!
Claims C6 and C9 rest on two facts about the accumulation loop: its output
elements come from the seed or the input, and — when the seed is already
duplicate-free — its output stays duplicate-free and records no input
clause that matches a seed clause.
-/

theorem dedupFold_mem (p : Clause → Clause → Bool) (l : List Clause) (acc : List Clause)
    (c : Clause) (hc : c ∈ dedupFold p acc l) : c ∈ acc ∨ c ∈ l := by
  induction l generalizing acc with
  | nil => exact Or.inl hc
  | cons a l ih =>
    rw [dedupFold, List.foldl_cons] at hc
    rcases ih _ hc with h | h
    · by_cases hd : acc.any (fun e => p e a)
      · rw [if_pos hd] at h
        exact Or.inl h
      · rw [if_neg hd] at h
        rcases List.mem_append.mp h with h | h
        · exact Or.inl h
        · rw [List.mem_singleton] at h
          exact Or.inr (h ▸ List.mem_cons_self a l)
    · exact Or.inr (List.mem_cons_of_mem a h)

theorem dedupFold_inv (p : Clause → Clause → Bool) (l : List Clause) (acc : List Clause)
    (hacc : acc.Pairwise (fun a b => p a b = false)) :
    (dedupFold p acc l).Pairwise (fun a b => p a b = false) ∧
    ∀ c ∈ dedupFold p acc l, c ∈ acc ∨ (c ∈ l ∧ ∀ r ∈ acc, p r c = false) := by
  induction l generalizing acc with
  | nil => exact ⟨hacc, fun c hc => Or.inl hc⟩
  | cons a l ih =>
    rw [dedupFold, List.foldl_cons]
    by_cases hd : acc.any (fun e => p e a)
    · rw [if_pos hd]
      obtain ⟨h1, h2⟩ := ih acc hacc
      refine ⟨h1, fun c hc => ?_⟩
      rcases h2 c hc with h | ⟨hcl, hr⟩
      · exact Or.inl h
      · exact Or.inr ⟨List.mem_cons_of_mem a hcl, hr⟩
    · rw [if_neg hd]
      have hnew : ∀ r ∈ acc, p r a = false := by
        intro r hr
        by_contra hcon
        exact hd (List.any_eq_true.mpr ⟨r, hr, by simpa using hcon⟩)
      have hacc' : (acc ++ [a]).Pairwise (fun a b => p a b = false) := by
        rw [List.pairwise_append]
        refine ⟨hacc, List.pairwise_singleton _ _, ?_⟩
        intro x hx y hy
        rw [List.mem_singleton] at hy
        exact hy ▸ hnew x hx
      obtain ⟨h1, h2⟩ := ih (acc ++ [a]) hacc'
      refine ⟨h1, fun c hc => ?_⟩
      rcases h2 c hc with h | ⟨hcl, hr⟩
      · rcases List.mem_append.mp h with h | h
        · exact Or.inl h
        · rw [List.mem_singleton] at h
          refine Or.inr ⟨?_, ?_⟩
          · rw [h]
            exact List.mem_cons_self a l
          · intro r hrr
            rw [h]
            exact hnew r hrr
      · exact Or.inr ⟨List.mem_cons_of_mem a hcl,
          fun r hrr => hr r (List.mem_append_left _ hrr)⟩

/-!
Claim C6 — deduplication in the merger.
-/

/-- C6 counterexample: the merger never deduplicates the rule-based list
against itself — with two distinct colliding rule-based clauses the output
contains both entries of the same category and identical first 50
characters of quote. -/
theorem C6_counterexample :
    combineRiskyClauses [c6a, c6b] [] = [c6a, c6b] ∧
    isDuplicateOf50 c6a c6b = true ∧
    c6a ≠ c6b :=
  ⟨rfl, by decide, by decide⟩

/-- C6 amended: provided the rule-based list is itself free of collisions,
the merged output never contains two entries with the same category and
identical first 50 characters of quote, and every output entry is either a
rule-based clause or a model-based clause that collides with no rule-based
clause (so on a collision the rule-based clause is the one retained);
collisions already present inside the rule-based list are not removed. -/
theorem C6_amended_dedup (rb ai : List Clause)
    (hrb : rb.Pairwise (fun a b => isDuplicateOf50 a b = false)) :
    (combineRiskyClauses rb ai).Pairwise (fun a b => isDuplicateOf50 a b = false) ∧
    ∀ c ∈ combineRiskyClauses rb ai,
      c ∈ rb ∨ (c ∈ ai ∧ ∀ r ∈ rb, isDuplicateOf50 r c = false) := by
  obtain ⟨h1, h2⟩ := dedupFold_inv isDuplicateOf50 ai rb hrb
  constructor
  · exact h1.sublist (List.take_sublist 10 _)
  · intro c hc
    exact h2 c (List.take_subset 10 _ hc)

/-- C6 amended, witness: merging a singleton rule-based list with one
colliding model-based clause keeps only the rule-based clause. -/
theorem C6_amended_dedup_witness :
    (combineRiskyClauses [c6a] [c6c]).Pairwise (fun a b => isDuplicateOf50 a b = false) ∧
    ∀ c ∈ combineRiskyClauses [c6a] [c6c],
      c ∈ [c6a] ∨ (c ∈ [c6c] ∧ ∀ r ∈ [c6a], isDuplicateOf50 r c = false) :=
  C6_amended_dedup [c6a] [c6c] (by simp)

/-!
Claim C9 — the quote of a rule-based clause.
-/

/-- C9 counterexample: the containing sentence is well under 300 characters,
yet the emitted quote carries an appended ellipsis and so is not the
sentence verbatim. -/
theorem C9_counterexample :
    (detectRiskyClausesRuleBased shortRiskText).map Clause.quote =
      ["You must pay liquidated damages..."] ∧
    (jsTrim shortRiskText.data).length ≤ 300 ∧
    "You must pay liquidated damages..." ≠ shortRiskText :=
  ⟨by decide, by decide, by decide⟩

/-- C9 amended: every quote the rule-based detector emits is the trimmed
containing sentence cut to 300 characters with the ellipsis appended
unconditionally — also when the sentence was not truncated. -/
theorem C9_amended_quote_shape (text : String) (q : String)
    (hq : q ∈ (detectRiskyClausesRuleBased text).map Clause.quote) :
    ∃ s, s ∈ splitSentences text.data ∧ 0 < (jsTrim s).length ∧
      q = String.mk ((jsTrim s).take 300 ++ "...".data) := by
  simp only [List.mem_map] at hq
  obtain ⟨c, hc, rfl⟩ := hq
  rw [detectRiskyClausesRuleBased, removeDuplicateClauses] at hc
  have hc' := dedupFold_mem isDuplicateOf100 _ [] c hc
  have hdet : c ∈ (riskPatterns.map (fun rc =>
      (rc.2.patterns.map (fun pat =>
        (jsMatch pat text.data).filterMap (clauseForMatch text.data rc.1 rc.2))).flatten)).flatten := by
    rcases hc' with h | h
    · exact absurd h (List.not_mem_nil c)
    · exact h
  simp only [List.mem_flatten, List.mem_map] at hdet
  obtain ⟨L, ⟨rc, hrc, hL⟩, hcL⟩ := hdet
  subst hL
  simp only [List.mem_flatten, List.mem_map] at hcL
  obtain ⟨L2, ⟨pat, hpat, hL2⟩, hcL2⟩ := hcL
  subst hL2
  obtain ⟨m, hm, hf⟩ := List.mem_filterMap.mp hcL2
  rw [clauseForMatch] at hf
  cases hfind : (splitSentences text.data).find?
      (fun sentence => containsSub (lowerChars sentence) (lowerChars m)) with
  | none =>
    rw [hfind] at hf
    exact absurd hf (by simp)
  | some s =>
    rw [hfind] at hf
    dsimp only at hf
    by_cases hlen : (jsTrim s).length > 0
    · rw [if_pos hlen] at hf
      have hcq := congrArg Clause.quote (Option.some.inj hf)
      refine ⟨s, List.mem_of_find?_eq_some hfind, hlen, ?_⟩
      exact hcq.symm
    · rw [if_neg hlen] at hf
      exact absurd hf (by simp)

/-- C9 amended, witness: the single clause detected in `shortRiskText`
carries exactly the trimmed-sentence-plus-ellipsis quote. -/
theorem C9_amended_quote_shape_witness :
    ∃ s, s ∈ splitSentences shortRiskText.data ∧ 0 < (jsTrim s).length ∧
      "You must pay liquidated damages..." = String.mk ((jsTrim s).take 300 ++ "...".data) :=
  C9_amended_quote_shape shortRiskText "You must pay liquidated damages..." (by decide)

end ContractGuard
